import Mathlib

/-!
Verification of `run_analysis.py` (Merge-Discovery pipeline controller).

Shallow embedding: filesystem directories are association lists from
filenames (lists of characters) to file contents (strings); external
effects (HTTP responses, subprocess exit codes, JSON parse outcomes)
are supplied by explicit environment records, and each Python function
becomes a Lean function over those environments returning both its
Python return value and the observable events the spec talks about
(files written, request issued, child process terminated, ...).
-/

set_option autoImplicit false

namespace MergeDiscovery

/-- A filename, as a list of characters. -/
abbrev FName := List Char

/-- A directory: an association list from filename to file contents.
A real directory has pairwise-distinct names; operations below keep at
most one entry per name they touch. -/
abbrev Dir := List (FName × String)

/-- The characters of the literal `.js`. -/
def jsSuffix : FName := ['.', 'j', 's']

/-- The characters of the literal `.json`. -/
def jsonSuffix : FName := ['.', 'j', 's', 'o', 'n']

/-- Models `EXTRACTED_JS_DIR.glob("*.js")` membership: pathlib's glob
uses fnmatch-style matching, so `*.js` matches exactly the names ending
in `.js` (pathlib, unlike the `glob` module, does not special-case
leading dots). -/
def isJsFile (n : FName) : Bool := jsSuffix.isSuffixOf n

/-- Models `JS_FILES_JSON_DIR.glob("*.json")` membership. -/
def isJsonFile (n : FName) : Bool := jsonSuffix.isSuffixOf n

/-- Index of the last `'.'` in a filename, if any: `name.rfind('.')`. -/
def lastDotIdx (cs : FName) : Option Nat :=
  match cs.reverse.findIdx? (fun c => c == '.') with
  | none => none
  | some j => some (cs.length - 1 - j)

/-- Models `pathlib.PurePath.stem` on a bare filename: the name without its
suffix, where the suffix is `name[i:]` for `i = name.rfind('.')` when
`0 < i < len(name) - 1`, and empty otherwise. -/
def pathStem (cs : FName) : FName :=
  match lastDotIdx cs with
  | none => cs
  | some i => if 0 < i ∧ i < cs.length - 1 then cs.take i else cs

/-- A JSON value as far as the extractor inspects it: the `content`
field is either a string or something else. -/
inductive JValue where
  | str (s : String)
  | nonStr
  deriving DecidableEq

/-- A parsed capture record: the dict `json.load` produced, restricted
to the one field the extractor reads (`data.get('content')`; `url`,
`status` and `error` are only printed). -/
structure CaptureRecord where
  content : Option JValue
  deriving DecidableEq

/-- A file of the capture-output JSON directory. `parsed = none` models
any exception in the per-file `try` block before the content test:
`json.load` failing, or the parsed value not being a dict (so
`data.get` raises). -/
structure SourceFile where
  name : FName
  parsed : Option CaptureRecord
  deriving DecidableEq

/-- The test `content and isinstance(content, str) and len(content) > 0`
on `data.get('content')`: it passes exactly for a non-empty string
(Python truthiness makes `None`, `""` and the `len` test redundant with
each other), and then yields the string that is written. -/
def usableContent : Option JValue → Option String
  | some (JValue.str s) => if 0 < s.length then some s else none
  | _ => none

/-- The string the extractor writes for a source file, if any. -/
def usableOf (f : SourceFile) : Option String :=
  f.parsed.bind (fun r => usableContent r.content)

/-- `json_file.stem + ".js"`: the name of the extracted file. -/
def jsName (f : SourceFile) : FName := pathStem f.name ++ jsSuffix

/-- Models `open(path, 'w')` followed by `f.write(content)`: creates or
truncates the named file and writes the contents. -/
def writeFile (d : Dir) (n : FName) (c : String) : Dir :=
  (n, c) :: d.filter (fun p => p.1 ≠ n)

/-- The running state of `extract_js_from_json_files`: the extraction
directory plus the two counters. -/
structure ExtractState where
  dir : Dir
  extracted : Nat
  failed : Nat
  deriving DecidableEq

/-- One iteration of the `for json_file in json_files` loop (lines
50-76): a failed parse or an unusable `content` is counted as a
failure, a usable `content` is written to `<stem>.js` and counted as
extracted. -/
def processFile (st : ExtractState) (f : SourceFile) : ExtractState :=
  match f.parsed with
  | none => { st with failed := st.failed + 1 }
  | some r =>
    match usableContent r.content with
    | some s =>
      { st with
        dir := writeFile st.dir (jsName f) s
        extracted := st.extracted + 1 }
    | none => { st with failed := st.failed + 1 }

/-- The function `extract_js_from_json_files` (lines 31-79): `srcDir` is the listing
of `JS_FILES_JSON_DIR`, `initDir` the listing of `EXTRACTED_JS_DIR`
(the `mkdir` makes the latter exist). It clears every `*.js` file from
the extraction directory, then processes every `*.json` source file in
order. The Python function returns `extracted_count`; the state also
carries the final directory and `failed_count` for the specification. -/
def extract_js_from_json_files (srcDir : List SourceFile) (initDir : Dir) :
    ExtractState :=
  let cleared := initDir.filter (fun p => !(isJsFile p.1))
  let json_files := srcDir.filter (fun f => isJsonFile f.name)
  json_files.foldl processFile ⟨cleared, 0, 0⟩

/-- The `json_files` list of `extract_js_from_json_files`. -/
def jsonFiles (srcDir : List SourceFile) : List SourceFile :=
  srcDir.filter (fun f => isJsonFile f.name)

/-- Whether a source file yields an extracted file. -/
def usableB (f : SourceFile) : Bool := (usableOf f).isSome

/-- The extracted files a list of source records produces, in
processing order. -/
def writesOf (L : List SourceFile) : Dir :=
  L.filterMap (fun f => (usableOf f).map (fun s => (jsName f, s)))

/-! ### Capture trigger: `run_noizz2025` (lines 82-166) -/

/-- Outcome of the `httpx.post("http://localhost:8000/map", ...)` call.
`exn` models a raised transport exception; `resp status bodyOk` a
returned response, where `bodyOk` says whether, in the 200 branch,
`response.json()` yields a dict whose summary fields the success
prints can read without raising. -/
inductive MapOutcome where
  | exn
  | resp (status : Nat) (bodyOk : Bool)
  deriving DecidableEq

/-- Environment of one `run_noizz2025` call: what the external world
answers. `health i` is the outcome of the `i`-th
`httpx.get(".../health", timeout=2)` poll (`none` = the call raised,
swallowed by the bare `except`); `configOk` whether `open(config_path)`
plus `json.load` succeed; `mapOutcome` the mapping request's outcome. -/
structure NoizzEnv where
  health : Nat → Option Nat
  configOk : Bool
  mapOutcome : MapOutcome

/-- Observable result of `run_noizz2025`: the returned boolean, whether
the `POST /map` request was ever issued, and whether the child server
process was signaled for termination (`server_process.terminate()`, or
`taskkill` on Windows) before the function returned. -/
structure NoizzResult where
  success : Bool
  mapIssued : Bool
  terminated : Bool
  deriving DecidableEq

/-- The polling loop (lines 102-114): up to `max_wait = 30` attempts,
`server_ready` becomes true (and the loop breaks) iff some attempt
returns a response with `status_code == 200`. -/
def serverReady (env : NoizzEnv) : Bool :=
  (List.range 30).any (fun i => env.health i == some 200)

/-- The function `run_noizz2025` (lines 82-166). If the server never reports
healthy, it terminates the child and returns `False` before any
mapping request. Otherwise the `try` block loads the config (an
exception there is caught, returning `False`), issues `POST /map`, and
returns `True` exactly on a 200 response whose body the success prints
can consume (a `response.json()` failure raises inside the `try` and is
caught, returning `False`); any other status returns `False`. The
`finally` block always signals the child process. -/
def run_noizz2025 (env : NoizzEnv) : NoizzResult :=
  if serverReady env = false then
    { success := false, mapIssued := false, terminated := true }
  else if env.configOk = false then
    { success := false, mapIssued := false, terminated := true }
  else
    match env.mapOutcome with
    | MapOutcome.exn => { success := false, mapIssued := true, terminated := true }
    | MapOutcome.resp status bodyOk =>
      if status = 200 then
        { success := bodyOk, mapIssued := true, terminated := true }
      else
        { success := false, mapIssued := true, terminated := true }

/-! ### Analyzer invoker: `run_static_analysis` (lines 169-207) and
`run_static_analysis_only` (lines 210-244) -/

/-- A directory as the analyzer invoker sees it: whether the path
exists, and its listing when it does. -/
structure DirState where
  present : Bool
  files : Dir
  deriving DecidableEq

/-- Result of an analyzer invocation: the returned boolean and whether
the `node main.js ...` subprocess was spawned. -/
structure AnalysisResult where
  success : Bool
  spawned : Bool
  deriving DecidableEq

/-- The function `run_static_analysis` (lines 169-207) on the extracted-JS
directory: fails fast when the directory is missing or holds no `*.js`
file; otherwise spawns the analyzer, whose exit code decides success.
(The optional output file only adds flags to the command line.) -/
def run_static_analysis (d : DirState) (analyzerExit : Nat) : AnalysisResult :=
  if d.present = false then { success := false, spawned := false }
  else if (d.files.filter (fun p => isJsFile p.1)) = [] then
    { success := false, spawned := false }
  else { success := analyzerExit = 0, spawned := true }

/-- The function `run_static_analysis_only` (lines 210-244): same checks against the
caller-supplied directory, or the default extracted-JS directory when
none is given. -/
def run_static_analysis_only (js_directory : Option DirState)
    (defaultDir : DirState) (analyzerExit : Nat) : AnalysisResult :=
  let target := js_directory.getD defaultDir
  if target.present = false then { success := false, spawned := false }
  else if (target.files.filter (fun p => isJsFile p.1)) = [] then
    { success := false, spawned := false }
  else { success := analyzerExit = 0, spawned := true }

/-! ### Merge invoker: `convert_and_merge_outputs` (lines 343-372) -/

/-- Observable result of a normal return of `convert_and_merge_outputs`
(the Python function returns `None`): which warnings it printed. A
nonzero merge exit itself never raises — it only prints a warning — but
the merged-file display can (see `MergeCrash`). -/
structure MergeResult where
  issuesWarning : Bool
  missingOutputWarning : Bool
  deriving DecidableEq

/-- A raise escaping `convert_and_merge_outputs` from the merged-file
display (lines 362-370): `open`/`json.load` failing on the existing
file, or the parsed value (or its `summary`/`sources` fields) not being
dicts, so a `.get` raises. The nonzero-exit warning of line 358 is
printed before the read, so the flag records whether it appeared. -/
structure MergeCrash where
  issuesWarning : Bool
  deriving DecidableEq

/-- The function `convert_and_merge_outputs` (lines 343-372): runs
`node run_pipeline.js --skip-crawl`; a nonzero exit only prints
`Warning: Merge step had issues`. Then the merged output file is
displayed if present — `mergedFile = none` models its absence (a
warning), `some true` a file whose `json.load` and summary `.get` chain
succeed, and `some false` one on which that read raises, the exception
escaping the function (nothing catches it). -/
def convert_and_merge_outputs (mergeExit : Nat) (mergedFile : Option Bool) :
    Except MergeCrash MergeResult :=
  match mergedFile with
  | none =>
    Except.ok { issuesWarning := mergeExit ≠ 0, missingOutputWarning := true }
  | some true =>
    Except.ok { issuesWarning := mergeExit ≠ 0, missingOutputWarning := false }
  | some false =>
    Except.error { issuesWarning := mergeExit ≠ 0 }

/-! ### Pipeline controller: `main` (lines 247-340) -/

/-- The parsed command-line arguments (lines 270-279). All six options
are independent `argparse` arguments — no mutually exclusive group is
declared — so every combination of flags parses successfully. -/
structure Args where
  url : Option String
  config : Option String
  skip_capture : Bool
  analyze_only : Bool
  js_dir : Option String
  output : Option String
  deriving DecidableEq

/-- The three run modes of the controller. -/
inductive Mode where
  | analyzeOnly
  | skipCapture
  | fullPipeline
  deriving DecidableEq

/-- Mode dispatch in `main` (lines 286-316): `args.analyze_only` is
tested first, then `args.skip_capture`, else the full workflow runs;
nothing rejects a combination of flags. -/
def selectMode (a : Args) : Mode :=
  if a.analyze_only then Mode.analyzeOnly
  else if a.skip_capture then Mode.skipCapture
  else Mode.fullPipeline

/-- Environment of a full-pipeline run: the capture environment, the
listings of the capture-output JSON directory and of the extraction
directory, and the external exit codes. -/
structure PipeEnv where
  noizz : NoizzEnv
  srcDir : List SourceFile
  extractedInit : Dir
  analyzerExit : Nat
  mergeExit : Nat
  mergedFile : Option Bool

/-- Observable outcome of the full-pipeline mode of `main`. -/
structure MainResult where
  exitCode : Nat
  extractionRan : Bool
  analysisSpawned : Bool
  mergeRan : Bool
  mergeIssuesWarning : Bool
  deriving DecidableEq

/-- Full-pipeline mode of `main` (lines 315-340): capture failure exits
1 before extraction; zero extractions exits 1; otherwise static
analysis runs (its result is not consulted) and the merge step runs. If
the merge step returns normally, `main` falls through to the final
prints and the process exits 0; if its merged-file read raises, nothing
in `main` catches the exception, so the interpreter dies with a
traceback and the process exits with status 1. -/
def mainFullPipeline (env : PipeEnv) : MainResult :=
  let r := run_noizz2025 env.noizz
  if r.success = false then
    { exitCode := 1, extractionRan := false, analysisSpawned := false
      mergeRan := false, mergeIssuesWarning := false }
  else
    let ex := extract_js_from_json_files env.srcDir env.extractedInit
    if ex.extracted = 0 then
      { exitCode := 1, extractionRan := true, analysisSpawned := false
        mergeRan := false, mergeIssuesWarning := false }
    else
      let sa := run_static_analysis ⟨true, ex.dir⟩ env.analyzerExit
      match convert_and_merge_outputs env.mergeExit env.mergedFile with
      | Except.error crash =>
        { exitCode := 1, extractionRan := true, analysisSpawned := sa.spawned
          mergeRan := true, mergeIssuesWarning := crash.issuesWarning }
      | Except.ok mg =>
        { exitCode := 0, extractionRan := true, analysisSpawned := sa.spawned
          mergeRan := true, mergeIssuesWarning := mg.issuesWarning }

/-! ### Concrete fixtures used to check the theorems on sample data -/

/-- A capture record with a non-empty string `content`. -/
def recA : SourceFile :=
  ⟨"a.json".toList, some ⟨some (JValue.str "console.log(1)")⟩⟩

/-- A capture record whose `content` field is absent. -/
def recB : SourceFile := ⟨"b.json".toList, some ⟨none⟩⟩

/-- A source file that fails to parse as JSON. -/
def recBad : SourceFile := ⟨"c.json".toList, none⟩

/-- A sample capture-output directory listing. -/
def srcSample : List SourceFile := [recA, recB, recBad]

/-- A sample extraction directory holding a stale `.js` file from a
prior run and an unrelated non-`.js` file. -/
def dirSample : Dir :=
  [("stale.js".toList, "old contents"), ("readme.txt".toList, "keep me")]

/-- A capture environment whose health endpoint never answers. -/
def envTimeout : NoizzEnv := ⟨fun _ => none, true, MapOutcome.exn⟩

/-- A capture environment where everything succeeds. -/
def envOk : NoizzEnv := ⟨fun _ => some 200, true, MapOutcome.resp 200 true⟩

/-- A capture environment whose mapping request gets a 201 (2xx but not
200) response. -/
def env201 : NoizzEnv := ⟨fun _ => some 200, true, MapOutcome.resp 201 true⟩

/-- A full-pipeline environment whose capture server never comes up. -/
def pipeTimeout : PipeEnv := ⟨envTimeout, srcSample, dirSample, 0, 0, some true⟩

/-- A full-pipeline environment where everything succeeds except the
merge tool, which exits 2; the merged file it left is readable. -/
def pipeMergeFail : PipeEnv := ⟨envOk, srcSample, dirSample, 0, 2, some true⟩

/-- A full-pipeline environment where the merge tool exits 2 and the
merged file it left behind exists but cannot be read (e.g. truncated
JSON from the failed run). -/
def pipeMergeCrash : PipeEnv := ⟨envOk, srcSample, dirSample, 0, 2, some false⟩

/-- A parsed command line carrying both mode flags. -/
def argsBoth : Args := ⟨none, none, true, true, none, none⟩

/-- An existing directory holding no `.js` file. -/
def dirNoJs : DirState := ⟨true, [("readme.txt".toList, "keep me")]⟩

/-- An existing directory holding a `.js` file. -/
def dirWithJs : DirState := ⟨true, [("a.js".toList, "x")]⟩

/-! ### Helper lemmas about filenames -/

theorem lastDotIdx_append_json (x : FName) :
    lastDotIdx (x ++ jsonSuffix) = some x.length := by
  unfold lastDotIdx
  rw [List.reverse_append]
  show (match ((('n' :: 'o' :: 's' :: 'j' :: '.' :: x.reverse).findIdx?
      (fun c => c == '.'))) with
    | none => none
    | some j => some ((x ++ jsonSuffix).length - 1 - j)) = some x.length
  simp [List.findIdx?_cons, jsonSuffix]

/-- The stem of `<x>.json` is `x` (for a nonempty `x`, matching
pathlib's rule that a suffix needs a dot past position 0). -/
theorem pathStem_append_json (x : FName) (hx : x ≠ []) :
    pathStem (x ++ jsonSuffix) = x := by
  unfold pathStem
  rw [lastDotIdx_append_json]
  show (if 0 < x.length ∧ x.length < (x ++ jsonSuffix).length - 1
      then (x ++ jsonSuffix).take x.length else x ++ jsonSuffix) = x
  have h1 : 0 < x.length := List.length_pos.mpr hx
  have h2 : (x ++ jsonSuffix).length = x.length + 5 := by simp [jsonSuffix]
  rw [if_pos ⟨h1, by omega⟩]
  exact List.take_left x jsonSuffix

/-- A `*.json` filename longer than the bare `.json` splits as
`<x>.json` with `x` nonempty. -/
theorem eq_append_json_of_isJsonFile {n : FName} (h : isJsonFile n = true)
    (hl : 5 < n.length) : ∃ x, x ≠ [] ∧ n = x ++ jsonSuffix := by
  have hs : jsonSuffix <:+ n := List.isSuffixOf_iff_suffix.mp h
  obtain ⟨t, ht⟩ := hs
  refine ⟨t, ?_, ht.symm⟩
  intro hnil
  subst hnil
  simp [← ht, jsonSuffix] at hl

/-- The name of an extracted file always ends in `.js`. -/
theorem isJsFile_jsName (f : SourceFile) : isJsFile (jsName f) = true :=
  List.isSuffixOf_iff_suffix.mpr (List.suffix_append (pathStem f.name) jsSuffix)

/-- On `*.json` filenames with a nonempty stem, `<stem>.js` determines
the source filename. -/
theorem name_eq_of_jsName_eq {f g : SourceFile}
    (hf : isJsonFile f.name = true) (hlf : 5 < f.name.length)
    (hg : isJsonFile g.name = true) (hlg : 5 < g.name.length)
    (h : jsName f = jsName g) : f.name = g.name := by
  obtain ⟨x, hx, hxe⟩ := eq_append_json_of_isJsonFile hf hlf
  obtain ⟨y, hy, hye⟩ := eq_append_json_of_isJsonFile hg hlg
  rw [hxe, hye]
  unfold jsName at h
  rw [hxe, hye, pathStem_append_json x hx, pathStem_append_json y hy] at h
  rw [List.append_cancel_right h]

/-! ### Helper lemmas about the extraction fold -/

theorem foldl_processFile_extracted (L : List SourceFile) (st : ExtractState) :
    (L.foldl processFile st).extracted = st.extracted + L.countP usableB := by
  induction L generalizing st with
  | nil => simp
  | cons f L ih =>
    rw [List.foldl_cons, ih, List.countP_cons]
    unfold processFile usableB usableOf
    cases hp : f.parsed with
    | none => simp [hp]; try omega
    | some r =>
      cases hu : usableContent r.content
      all_goals simp [hp, hu]
      all_goals try omega

theorem foldl_processFile_failed (L : List SourceFile) (st : ExtractState) :
    (L.foldl processFile st).failed = st.failed + L.countP (fun f => !(usableB f)) := by
  induction L generalizing st with
  | nil => simp
  | cons f L ih =>
    rw [List.foldl_cons, ih, List.countP_cons]
    unfold processFile usableB usableOf
    cases hp : f.parsed with
    | none => simp [hp]; try omega
    | some r =>
      cases hu : usableContent r.content
      all_goals simp [hp, hu]
      all_goals try omega

theorem writesOf_cons_of_usable {f : SourceFile} {s : String} (L : List SourceFile)
    (h : usableOf f = some s) :
    writesOf (f :: L) = (jsName f, s) :: writesOf L := by
  simp [writesOf, List.filterMap_cons, h]

theorem writesOf_cons_of_not_usable {f : SourceFile} (L : List SourceFile)
    (h : usableOf f = none) : writesOf (f :: L) = writesOf L := by
  simp [writesOf, List.filterMap_cons, h]

/-- The extracted filenames are the `<stem>.js` of the usable records. -/
theorem map_fst_writesOf (L : List SourceFile) :
    (writesOf L).map Prod.fst = (L.filter usableB).map jsName := by
  induction L with
  | nil => rfl
  | cons f L ih =>
    cases hu : usableOf f with
    | none =>
      rw [writesOf_cons_of_not_usable L hu, List.filter_cons]
      simp [usableB, hu, ih]
    | some s =>
      rw [writesOf_cons_of_usable L hu, List.filter_cons]
      simp [usableB, hu, ih]

/-- When no name collision can occur, the fold just prepends the
extracted files (in reverse processing order) to the directory. -/
theorem foldl_processFile_dir (L : List SourceFile) (d : Dir) (e fl : Nat)
    (hnodup : ((writesOf L).map Prod.fst).Nodup)
    (hd : ∀ p ∈ d, p.1 ∉ (writesOf L).map Prod.fst) :
    (L.foldl processFile ⟨d, e, fl⟩).dir = (writesOf L).reverse ++ d := by
  induction L generalizing d e fl with
  | nil => simp [writesOf]
  | cons f L ih =>
    rw [List.foldl_cons]
    cases hp : f.parsed with
    | none =>
      have hu : usableOf f = none := by simp [usableOf, hp]
      have hstep : processFile ⟨d, e, fl⟩ f = ⟨d, e, fl + 1⟩ := by
        simp [processFile, hp]
      rw [writesOf_cons_of_not_usable L hu] at hnodup hd ⊢
      rw [hstep]
      exact ih _ _ _ hnodup hd
    | some r =>
      cases hu : usableContent r.content with
      | none =>
        have hu' : usableOf f = none := by simp [usableOf, hp, hu]
        have hstep : processFile ⟨d, e, fl⟩ f = ⟨d, e, fl + 1⟩ := by
          simp [processFile, hp, hu]
        rw [writesOf_cons_of_not_usable L hu'] at hnodup hd ⊢
        rw [hstep]
        exact ih _ _ _ hnodup hd
      | some s =>
        have hu' : usableOf f = some s := by simp [usableOf, hp, hu]
        have hwrite : writeFile d (jsName f) s = (jsName f, s) :: d := by
          unfold writeFile
          rw [List.filter_eq_self.mpr]
          intro p hp'
          have := hd p hp'
          rw [writesOf_cons_of_usable L hu'] at this
          simp only [List.map_cons, List.mem_cons] at this
          push_neg at this
          exact decide_eq_true this.1
        have hstep : processFile ⟨d, e, fl⟩ f
            = ⟨(jsName f, s) :: d, e + 1, fl⟩ := by
          simp [processFile, hp, hu, hwrite]
        rw [writesOf_cons_of_usable L hu'] at hnodup hd ⊢
        rw [hstep]
        rw [ih ((jsName f, s) :: d) _ _ ((List.nodup_cons.mp hnodup).2) ?_]
        · simp
        · intro p hp'
          rcases List.mem_cons.mp hp' with h | h
          · subst h
            exact (List.nodup_cons.mp hnodup).1
          · have := hd p h
            simp only [List.map_cons, List.mem_cons] at this
            push_neg at this
            exact this.2

theorem extract_extracted_eq (srcDir : List SourceFile) (d0 : Dir) :
    (extract_js_from_json_files srcDir d0).extracted
      = (jsonFiles srcDir).countP usableB := by
  unfold extract_js_from_json_files jsonFiles
  rw [foldl_processFile_extracted]
  simp

theorem extract_failed_eq (srcDir : List SourceFile) (d0 : Dir) :
    (extract_js_from_json_files srcDir d0).failed
      = (jsonFiles srcDir).countP (fun f => !(usableB f)) := by
  unfold extract_js_from_json_files jsonFiles
  rw [foldl_processFile_failed]
  simp

theorem countP_usable_add_not (L : List SourceFile) :
    L.countP usableB + L.countP (fun f => !(usableB f)) = L.length := by
  induction L with
  | nil => rfl
  | cons f L ih =>
    rw [List.countP_cons, List.countP_cons]
    cases h : usableB f <;> simp [h] <;> omega

/-- On a duplicate-free list of filenames, a present name is counted
exactly once. -/
theorem countP_beq_eq_one_of_nodup {L : List FName} {n : FName}
    (hnd : L.Nodup) (hmem : n ∈ L) : L.countP (fun m => m == n) = 1 := by
  induction L with
  | nil => cases hmem
  | cons a t ih =>
    rw [List.countP_cons]
    rcases List.mem_cons.mp hmem with rfl | hmem'
    · have hz : t.countP (fun m => m == n) = 0 := by
        rw [List.countP_eq_zero]
        intro x hx hx'
        have hxa : x = n := by simpa using hx'
        exact (List.nodup_cons.mp hnd).1 (hxa ▸ hx)
      simp [hz]
    · have hne : a ≠ n := by
        intro h
        exact (List.nodup_cons.mp hnd).1 (h ▸ hmem')
      have ha : (a == n) = false := by
        simpa using hne
      rw [ih (List.nodup_cons.mp hnd).2 hmem']
      simp [ha]

/-- Names distinct on the source directory plus no degenerate `.json`
name give pairwise-distinct extracted filenames. -/
theorem writes_names_nodup (srcDir : List SourceFile)
    (h1 : (srcDir.map SourceFile.name).Nodup)
    (h2 : ∀ g ∈ srcDir, isJsonFile g.name = true → 5 < g.name.length) :
    ((writesOf (jsonFiles srcDir)).map Prod.fst).Nodup := by
  rw [map_fst_writesOf]
  have hsub : ((jsonFiles srcDir).filter usableB).Sublist srcDir :=
    (List.filter_sublist (jsonFiles srcDir)).trans
      (List.filter_sublist srcDir)
  have hnd : ((jsonFiles srcDir).filter usableB).Nodup :=
    (h1.of_map SourceFile.name).sublist hsub
  refine List.Nodup.map_on ?_ hnd
  intro x hx y hy hxy
  have hx' : x ∈ srcDir ∧ isJsonFile x.name = true := by
    have := List.mem_of_mem_filter hx
    exact ⟨List.mem_of_mem_filter this, by
      simpa using (List.mem_filter.mp this).2⟩
  have hy' : y ∈ srcDir ∧ isJsonFile y.name = true := by
    have := List.mem_of_mem_filter hy
    exact ⟨List.mem_of_mem_filter this, by
      simpa using (List.mem_filter.mp this).2⟩
  have hname : x.name = y.name :=
    name_eq_of_jsName_eq hx'.2 (h2 x hx'.1 hx'.2) hy'.2 (h2 y hy'.1 hy'.2) hxy
  exact List.inj_on_of_nodup_map h1 hx'.1 hy'.1 hname

/-- Under those hypotheses, the extraction directory after a run is the
extracted files (in reverse processing order) followed by the surviving
non-`.js` files. -/
theorem extract_dir_eq (srcDir : List SourceFile) (d0 : Dir)
    (h1 : (srcDir.map SourceFile.name).Nodup)
    (h2 : ∀ g ∈ srcDir, isJsonFile g.name = true → 5 < g.name.length) :
    (extract_js_from_json_files srcDir d0).dir
      = (writesOf (jsonFiles srcDir)).reverse
        ++ d0.filter (fun p => !(isJsFile p.1)) := by
  unfold extract_js_from_json_files
  show ((jsonFiles srcDir).foldl processFile
      ⟨d0.filter (fun p => !(isJsFile p.1)), 0, 0⟩).dir = _
  refine foldl_processFile_dir _ _ _ _ (writes_names_nodup srcDir h1 h2) ?_
  intro p hp hmem
  have hjs : isJsFile p.1 = true := by
    rw [map_fst_writesOf] at hmem
    obtain ⟨g, _, hg⟩ := List.mem_map.mp hmem
    rw [← hg]
    exact isJsFile_jsName g
  have := (List.mem_filter.mp hp).2
  simp [hjs] at this

/-- Writing a `*.js` file leaves the non-`.js` entries of a directory
untouched. -/
theorem filter_non_js_writeFile (d : Dir) (n : FName) (c : String)
    (h : isJsFile n = true) :
    (writeFile d n c).filter (fun p => !(isJsFile p.1))
      = d.filter (fun p => !(isJsFile p.1)) := by
  unfold writeFile
  rw [List.filter_cons]
  have hn : (!(isJsFile n)) = false := by rw [h]; rfl
  simp only [hn, if_false]
  rw [List.filter_filter]
  refine List.filter_congr ?_
  intro p _
  cases hjs : isJsFile p.1 with
  | true => rfl
  | false =>
    simp only [Bool.not_false, Bool.true_and]
    refine decide_eq_true ?_
    intro he
    rw [he, h] at hjs
    exact absurd hjs (by simp)

theorem foldl_processFile_filter_non_js (L : List SourceFile)
    (d : Dir) (e fl : Nat) :
    ((L.foldl processFile ⟨d, e, fl⟩).dir).filter (fun p => !(isJsFile p.1))
      = d.filter (fun p => !(isJsFile p.1)) := by
  induction L generalizing d e fl with
  | nil => rfl
  | cons f L ih =>
    rw [List.foldl_cons]
    cases hp : f.parsed with
    | none =>
      have hstep : processFile ⟨d, e, fl⟩ f = ⟨d, e, fl + 1⟩ := by
        simp [processFile, hp]
      rw [hstep, ih]
    | some r =>
      cases hu : usableContent r.content with
      | none =>
        have hstep : processFile ⟨d, e, fl⟩ f = ⟨d, e, fl + 1⟩ := by
          simp [processFile, hp, hu]
        rw [hstep, ih]
      | some s =>
        have hstep : processFile ⟨d, e, fl⟩ f
            = ⟨writeFile d (jsName f) s, e + 1, fl⟩ := by
          simp [processFile, hp, hu]
        rw [hstep, ih, filter_non_js_writeFile d (jsName f) s (isJsFile_jsName f)]

/-! ### Claim C1 -/

/-- C1: for every capture record (a `*.json` file of the source
directory) whose `content` field is a non-empty string,
`extract_js_from_json_files` writes exactly one file named `<stem>.js`
in the extraction directory whose contents equal that string, and the
extracted count it returns counts exactly one per such record. Stated
for listings with pairwise-distinct filenames none of which is the
degenerate bare `.json`, which real directories satisfy. -/
theorem extracted_file_per_usable_record
    (srcDir : List SourceFile) (d0 : Dir) (f : SourceFile) (s : String)
    (h1 : (srcDir.map SourceFile.name).Nodup)
    (h2 : ∀ g ∈ srcDir, isJsonFile g.name = true → 5 < g.name.length)
    (hf : f ∈ srcDir) (hjson : isJsonFile f.name = true)
    (hs : usableOf f = some s) :
    (jsName f, s) ∈ (extract_js_from_json_files srcDir d0).dir
    ∧ ((extract_js_from_json_files srcDir d0).dir.countP
        (fun p => p.1 == jsName f)) = 1
    ∧ (extract_js_from_json_files srcDir d0).extracted
        = (jsonFiles srcDir).countP usableB := by
  have hdir := extract_dir_eq srcDir d0 h1 h2
  have hfj : f ∈ jsonFiles srcDir := List.mem_filter.mpr ⟨hf, hjson⟩
  have hw : (jsName f, s) ∈ writesOf (jsonFiles srcDir) := by
    unfold writesOf
    refine List.mem_filterMap.mpr ⟨f, hfj, ?_⟩
    rw [hs]
    rfl
  refine ⟨?_, ?_, extract_extracted_eq srcDir d0⟩
  · rw [hdir]
    exact List.mem_append_left _ (List.mem_reverse.mpr hw)
  · rw [hdir, List.countP_append, List.countP_reverse]
    have hcl : (d0.filter (fun p => !(isJsFile p.1))).countP
        (fun p => p.1 == jsName f) = 0 := by
      rw [List.countP_eq_zero]
      intro q hq hq'
      have h1' : q.1 = jsName f := by
        simpa using hq'
      have := (List.mem_filter.mp hq).2
      rw [h1', isJsFile_jsName] at this
      simp at this
    have hone : (writesOf (jsonFiles srcDir)).countP
        (fun p => p.1 == jsName f) = 1 := by
      have hcnt := countP_beq_eq_one_of_nodup (writes_names_nodup srcDir h1 h2)
        (List.mem_map_of_mem Prod.fst hw)
      rw [List.countP_map] at hcnt
      exact hcnt
    rw [hcl, hone]

/-- Checks C1 on the sample listing: `a.json` holds the script
`console.log(1)`, so exactly one `a.js` with those contents appears and
it is counted once. -/
theorem extracted_file_per_usable_record_check :
    (jsName recA, "console.log(1)")
      ∈ (extract_js_from_json_files srcSample dirSample).dir
    ∧ ((extract_js_from_json_files srcSample dirSample).dir.countP
        (fun p => p.1 == jsName recA)) = 1
    ∧ (extract_js_from_json_files srcSample dirSample).extracted
        = (jsonFiles srcSample).countP usableB :=
  extracted_file_per_usable_record srcSample dirSample recA "console.log(1)"
    (by decide) (by decide) (by decide) (by decide) (by decide)

/-! ### Claim C2 -/

/-- C2: a capture record lacking usable content (absent, empty, or
non-string `content`) and likewise a source file that fails to parse as
JSON produce no `.js` file, are counted as exactly one failure each,
and do not abort the batch: the counters add up over the whole source
listing. `usableOf f = none` covers both the parse-failure path and the
unusable-content path of the per-record `try` block. -/
theorem no_file_for_unusable_record
    (srcDir : List SourceFile) (d0 : Dir) (f : SourceFile)
    (h1 : (srcDir.map SourceFile.name).Nodup)
    (h2 : ∀ g ∈ srcDir, isJsonFile g.name = true → 5 < g.name.length)
    (hf : f ∈ srcDir) (hjson : isJsonFile f.name = true)
    (hs : usableOf f = none) :
    ((extract_js_from_json_files srcDir d0).dir.countP
        (fun p => p.1 == jsName f)) = 0
    ∧ (extract_js_from_json_files srcDir d0).failed
        = (jsonFiles srcDir).countP (fun g => !(usableB g))
    ∧ (extract_js_from_json_files srcDir d0).extracted
        + (extract_js_from_json_files srcDir d0).failed
        = (jsonFiles srcDir).length := by
  refine ⟨?_, extract_failed_eq srcDir d0, ?_⟩
  · rw [extract_dir_eq srcDir d0 h1 h2, List.countP_append, List.countP_reverse]
    have hwz : (writesOf (jsonFiles srcDir)).countP
        (fun p => p.1 == jsName f) = 0 := by
      rw [List.countP_eq_zero]
      intro q hq hq'
      have hq1 : q.1 = jsName f := by simpa using hq'
      obtain ⟨g, hgmem, hgeq⟩ := List.mem_filterMap.mp hq
      obtain ⟨s, hgs, hpair⟩ := Option.map_eq_some'.mp hgeq
      have hg1 : g ∈ srcDir := List.mem_of_mem_filter hgmem
      have hg2 : isJsonFile g.name = true := (List.mem_filter.mp hgmem).2
      have hgn : jsName g = jsName f := by
        rw [← hq1, ← hpair]
      have hname : g.name = f.name :=
        name_eq_of_jsName_eq hg2 (h2 g hg1 hg2) hjson (h2 f hf hjson) hgn
      have hgf : g = f := List.inj_on_of_nodup_map h1 hg1 hf hname
      rw [hgf, hs] at hgs
      cases hgs
    have hcz : (d0.filter (fun p => !(isJsFile p.1))).countP
        (fun p => p.1 == jsName f) = 0 := by
      rw [List.countP_eq_zero]
      intro q hq hq'
      have hq1 : q.1 = jsName f := by simpa using hq'
      have := (List.mem_filter.mp hq).2
      rw [hq1, isJsFile_jsName] at this
      simp at this
    rw [hwz, hcz]
  · rw [extract_extracted_eq srcDir d0, extract_failed_eq srcDir d0]
    exact countP_usable_add_not (jsonFiles srcDir)

/-- Checks C2 on the sample listing: `b.json` (no `content` field) and
`c.json` (unparsable) yield no file and two failures out of three
records. -/
theorem no_file_for_unusable_record_check :
    ((extract_js_from_json_files srcSample dirSample).dir.countP
        (fun p => p.1 == jsName recB)) = 0
    ∧ (extract_js_from_json_files srcSample dirSample).failed
        = (jsonFiles srcSample).countP (fun g => !(usableB g))
    ∧ (extract_js_from_json_files srcSample dirSample).extracted
        + (extract_js_from_json_files srcSample dirSample).failed
        = (jsonFiles srcSample).length :=
  no_file_for_unusable_record srcSample dirSample recB
    (by decide) (by decide) (by decide) (by decide) (by decide)

/-! ### Claim C6 -/

/-- C6: running extraction leaves no stale output: the `.js` entries of
the extraction directory afterwards are exactly the files produced from
the current source set — a `.js` file is present with contents `c` iff
some current `*.json` record has usable content `c` and the matching
`<stem>.js` name. In particular no `.js` file survives from a prior run
whose record has since been removed. -/
theorem extraction_dir_matches_current_sources
    (srcDir : List SourceFile) (d0 : Dir)
    (h1 : (srcDir.map SourceFile.name).Nodup)
    (h2 : ∀ g ∈ srcDir, isJsonFile g.name = true → 5 < g.name.length)
    (n : FName) (c : String) :
    ((n, c) ∈ (extract_js_from_json_files srcDir d0).dir ∧ isJsFile n = true)
    ↔ ∃ f, f ∈ srcDir ∧ isJsonFile f.name = true ∧ usableOf f = some c
        ∧ n = jsName f := by
  rw [extract_dir_eq srcDir d0 h1 h2]
  constructor
  · rintro ⟨hm, hjs⟩
    rcases List.mem_append.mp hm with hm | hm
    · obtain ⟨f, hfmem, hfeq⟩ := List.mem_filterMap.mp (List.mem_reverse.mp hm)
      obtain ⟨s, hfs, hpair⟩ := Option.map_eq_some'.mp hfeq
      obtain ⟨hn, hc⟩ := Prod.mk.injEq .. ▸ hpair
      refine ⟨f, List.mem_of_mem_filter hfmem, (List.mem_filter.mp hfmem).2,
        ?_, hn.symm⟩
      rw [hfs, hc]
    · have := (List.mem_filter.mp hm).2
      rw [hjs] at this
      simp at this
  · rintro ⟨f, hfs, hfjson, hfu, rfl⟩
    refine ⟨List.mem_append_left _ (List.mem_reverse.mpr ?_), isJsFile_jsName f⟩
    refine List.mem_filterMap.mpr ⟨f, List.mem_filter.mpr ⟨hfs, hfjson⟩, ?_⟩
    rw [hfu]
    rfl

/-- Checks C6 on the sample data: the stale `stale.js` seeded in the
extraction directory is gone, as witnessed by the characterization at
its own name. -/
theorem extraction_dir_matches_current_sources_check :
    (("stale.js".toList, "old contents")
        ∈ (extract_js_from_json_files srcSample dirSample).dir
      ∧ isJsFile "stale.js".toList = true)
    ↔ ∃ f, f ∈ srcSample ∧ isJsonFile f.name = true
        ∧ usableOf f = some "old contents" ∧ "stale.js".toList = jsName f :=
  extraction_dir_matches_current_sources srcSample dirSample
    (by decide) (by decide) "stale.js".toList "old contents"

/-! ### Claim C10 -/

/-- C10: the pre-write clearing step deletes only `*.js` files and the
writes only create `<stem>.js` files, so every file of the extraction
directory whose name does not end in `.js` survives extraction with
unchanged contents — indeed the non-`.js` portion of the directory is
unchanged as a whole. -/
theorem non_js_files_untouched (srcDir : List SourceFile) (d0 : Dir)
    (p : FName × String) (hp : p ∈ d0) (hjs : isJsFile p.1 = false) :
    p ∈ (extract_js_from_json_files srcDir d0).dir
    ∧ ((extract_js_from_json_files srcDir d0).dir).filter
        (fun q => !(isJsFile q.1)) = d0.filter (fun q => !(isJsFile q.1)) := by
  have hfe : ((extract_js_from_json_files srcDir d0).dir).filter
      (fun q => !(isJsFile q.1)) = d0.filter (fun q => !(isJsFile q.1)) := by
    unfold extract_js_from_json_files
    show (((jsonFiles srcDir).foldl processFile
        ⟨d0.filter (fun q => !(isJsFile q.1)), 0, 0⟩).dir).filter
        (fun q => !(isJsFile q.1)) = _
    rw [foldl_processFile_filter_non_js, List.filter_filter]
    refine List.filter_congr ?_
    intro q _
    cases isJsFile q.1 <;> rfl
  refine ⟨?_, hfe⟩
  have hpm : p ∈ d0.filter (fun q => !(isJsFile q.1)) :=
    List.mem_filter.mpr ⟨hp, by rw [hjs]; rfl⟩
  rw [← hfe] at hpm
  exact List.mem_of_mem_filter hpm

/-- Checks C10 on the sample data: `readme.txt` survives extraction
with its contents. -/
theorem non_js_files_untouched_check :
    ("readme.txt".toList, "keep me")
      ∈ (extract_js_from_json_files srcSample dirSample).dir
    ∧ ((extract_js_from_json_files srcSample dirSample).dir).filter
        (fun q => !(isJsFile q.1))
      = dirSample.filter (fun q => !(isJsFile q.1)) :=
  non_js_files_untouched srcSample dirSample ("readme.txt".toList, "keep me")
    (by decide) (by decide)

/-! ### Claim C3 -/

/-- C3 counterexample: the claim says any 2xx response to the mapping
request yields success, but the code tests `status_code == 200`
exactly. In `env201` the server is healthy, the mapping request is
issued and answered with 201 — a 2xx status — yet `run_noizz2025`
returns `False`. -/
theorem two_xx_mapping_response_not_success :
    200 ≤ 201 ∧ 201 < 300
    ∧ (run_noizz2025 env201).mapIssued = true
    ∧ (run_noizz2025 env201).success = false := by
  decide

/-- C3 amended: once the server polls healthy and the config loads,
`run_noizz2025` reports failure exactly when the mapping POST raises,
returns a status other than exactly 200, or returns 200 with a body the
success prints cannot consume; it returns `True` exactly on a 200
response with a readable JSON-object body. -/
theorem mapping_success_iff_200 (env : NoizzEnv)
    (hready : serverReady env = true) (hcfg : env.configOk = true) :
    ((run_noizz2025 env).success = true
      ↔ env.mapOutcome = MapOutcome.resp 200 true) := by
  unfold run_noizz2025
  simp only [hready, hcfg]
  cases hm : env.mapOutcome with
  | exn => simp
  | resp status bodyOk =>
    by_cases hst : status = 200
    · subst hst
      cases bodyOk <;> simp
    · simp [hst]

/-- Checks the amended C3 in the all-success environment. -/
theorem mapping_success_iff_200_check :
    ((run_noizz2025 envOk).success = true
      ↔ envOk.mapOutcome = MapOutcome.resp 200 true) :=
  mapping_success_iff_200 envOk (by decide) (by decide)

/-! ### Claim C4 -/

/-- C4: on every exit path of `run_noizz2025` — health check never
succeeding, mapping success, non-200 response, body-parse failure, or
a raised exception — the capture child process is signaled for
termination before the function returns. -/
theorem child_terminated_on_every_path (env : NoizzEnv) :
    (run_noizz2025 env).terminated = true := by
  unfold run_noizz2025
  split
  · rfl
  · split
    · rfl
    · split
      · rfl
      · split <;> rfl

/-- Checks C4 in the environment whose health endpoint never answers. -/
theorem child_terminated_on_every_path_check :
    (run_noizz2025 envTimeout).terminated = true :=
  child_terminated_on_every_path envTimeout

/-! ### Claim C5 -/

/-- C5: in full-pipeline mode, when the health endpoint never returns
200 within the 30-attempt polling budget, no mapping request is issued,
the child process is terminated, `run_noizz2025` returns `False`,
extraction never runs, and the process exits with status 1. -/
theorem health_timeout_aborts_pipeline (penv : PipeEnv)
    (h : ∀ i, i < 30 → penv.noizz.health i ≠ some 200) :
    (run_noizz2025 penv.noizz).success = false
    ∧ (run_noizz2025 penv.noizz).mapIssued = false
    ∧ (run_noizz2025 penv.noizz).terminated = true
    ∧ (mainFullPipeline penv).extractionRan = false
    ∧ (mainFullPipeline penv).exitCode = 1 := by
  have hready : serverReady penv.noizz = false := by
    unfold serverReady
    rw [List.any_eq_false]
    intro i hi
    have := h i (List.mem_range.mp hi)
    simpa using this
  have hrun : run_noizz2025 penv.noizz
      = { success := false, mapIssued := false, terminated := true } := by
    unfold run_noizz2025
    rw [hready]
    rfl
  refine ⟨by rw [hrun], by rw [hrun], by rw [hrun], ?_, ?_⟩
  all_goals unfold mainFullPipeline
  all_goals rw [hrun]
  all_goals rfl

/-- Checks C5 in the environment whose health endpoint never answers. -/
theorem health_timeout_aborts_pipeline_check :
    (run_noizz2025 pipeTimeout.noizz).success = false
    ∧ (run_noizz2025 pipeTimeout.noizz).mapIssued = false
    ∧ (run_noizz2025 pipeTimeout.noizz).terminated = true
    ∧ (mainFullPipeline pipeTimeout).extractionRan = false
    ∧ (mainFullPipeline pipeTimeout).exitCode = 1 :=
  health_timeout_aborts_pipeline pipeTimeout (by decide)

/-! ### Claim C7 -/

/-- C7: both analyzer invokers return failure without spawning the
analyzer subprocess whenever the target directory does not exist or
contains zero `.js` files. -/
theorem analyzer_fails_fast_without_spawn (d other : DirState) (ec : Nat)
    (h : d.present = false ∨ d.files.filter (fun p => isJsFile p.1) = []) :
    run_static_analysis d ec = ⟨false, false⟩
    ∧ run_static_analysis_only (some d) other ec = ⟨false, false⟩ := by
  rcases h with h | h
  · constructor <;> simp [run_static_analysis, run_static_analysis_only, h]
  · by_cases hp : d.present = false
    · constructor <;> simp [run_static_analysis, run_static_analysis_only, hp]
    · constructor <;> simp [run_static_analysis, run_static_analysis_only, hp, h]

/-- Checks C7 on an existing directory with no `.js` file. -/
theorem analyzer_fails_fast_without_spawn_check :
    run_static_analysis dirNoJs 0 = ⟨false, false⟩
    ∧ run_static_analysis_only (some dirNoJs) dirWithJs 0 = ⟨false, false⟩ :=
  analyzer_fails_fast_without_spawn dirNoJs dirWithJs 0 (by decide)

/-! ### Claim C8 -/

/-- C8 counterexample: the claim says a nonzero merge exit is never
fatal, but after printing the warning `convert_and_merge_outputs` reads
the merged output file whenever it exists (lines 361-370) with nothing
catching a failure of `json.load` or of the summary `.get` chain. In
`pipeMergeCrash` every prior stage succeeds and the merge tool exits 2
leaving a corrupt merged file: the function does not return normally
and the process exits 1, not 0. -/
theorem merge_crash_on_corrupt_output :
    pipeMergeCrash.mergeExit ≠ 0
    ∧ (run_noizz2025 pipeMergeCrash.noizz).success = true
    ∧ 0 < (extract_js_from_json_files pipeMergeCrash.srcDir
        pipeMergeCrash.extractedInit).extracted
    ∧ pipeMergeCrash.analyzerExit = 0
    ∧ (convert_and_merge_outputs pipeMergeCrash.mergeExit
        pipeMergeCrash.mergedFile).isOk = false
    ∧ (mainFullPipeline pipeMergeCrash).exitCode = 1 := by
  decide

/-- C8 amended: a nonzero merge-tool exit is itself never fatal — it
only makes `convert_and_merge_outputs` print a warning — and provided
the merged output file is absent or readable, the function returns
normally and the full pipeline (capture succeeded, extraction
non-empty, analyzer exited 0) still exits with status 0. Only a merged
file that exists but cannot be read makes the display raise and the
process die nonzero. -/
theorem merge_failure_not_fatal (penv : PipeEnv)
    (hn : (run_noizz2025 penv.noizz).success = true)
    (hx : 0 < (extract_js_from_json_files penv.srcDir penv.extractedInit).extracted)
    (_ha : penv.analyzerExit = 0)
    (hm : penv.mergeExit ≠ 0)
    (hr : penv.mergedFile ≠ some false) :
    (∃ mg, convert_and_merge_outputs penv.mergeExit penv.mergedFile
        = Except.ok mg ∧ mg.issuesWarning = true)
    ∧ (mainFullPipeline penv).mergeRan = true
    ∧ (mainFullPipeline penv).mergeIssuesWarning = true
    ∧ (mainFullPipeline penv).exitCode = 0 := by
  have hx' : ¬ (extract_js_from_json_files penv.srcDir
      penv.extractedInit).extracted = 0 := by omega
  obtain ⟨mg, hconv, hmg⟩ : ∃ mg,
      convert_and_merge_outputs penv.mergeExit penv.mergedFile = Except.ok mg
      ∧ mg.issuesWarning = true := by
    cases hmf : penv.mergedFile with
    | none =>
      refine ⟨⟨decide (penv.mergeExit ≠ 0), true⟩, ?_, by simp [hm]⟩
      simp [convert_and_merge_outputs, hmf]
    | some b =>
      cases b with
      | false => exact absurd hmf hr
      | true =>
        refine ⟨⟨decide (penv.mergeExit ≠ 0), false⟩, ?_, by simp [hm]⟩
        simp [convert_and_merge_outputs, hmf]
  refine ⟨⟨mg, hconv, hmg⟩, ?_, ?_, ?_⟩
  all_goals unfold mainFullPipeline
  all_goals simp [hn, hx', hconv, hmg]

/-- Checks the amended C8 in the environment where only the merge tool
(exit 2) fails and the merged file it left is readable. -/
theorem merge_failure_not_fatal_check :
    (∃ mg, convert_and_merge_outputs pipeMergeFail.mergeExit
        pipeMergeFail.mergedFile = Except.ok mg ∧ mg.issuesWarning = true)
    ∧ (mainFullPipeline pipeMergeFail).mergeRan = true
    ∧ (mainFullPipeline pipeMergeFail).mergeIssuesWarning = true
    ∧ (mainFullPipeline pipeMergeFail).exitCode = 0 :=
  merge_failure_not_fatal pipeMergeFail
    (by decide) (by decide) (by decide) (by decide) (by decide)

/-! ### Claim C9 -/

/-- C9 counterexample: the claim says an invocation supplying more than
one mode flag is rejected, but `--skip-capture` and `--analyze-only`
are declared as independent `argparse` flags with no mutually exclusive
group: supplying both parses successfully and `main` silently runs the
analyze-only branch, which is tested first. -/
theorem both_mode_flags_accepted :
    argsBoth.skip_capture = true ∧ argsBoth.analyze_only = true
    ∧ selectMode argsBoth = Mode.analyzeOnly := by
  decide

/-- C9 amended: the mode flags are not mutually exclusive; an
invocation supplying both `--analyze-only` and `--skip-capture` is
accepted, and analyze-only silently takes precedence over
skip-capture. -/
theorem analyze_only_takes_precedence (a : Args)
    (h1 : a.analyze_only = true) (_h2 : a.skip_capture = true) :
    selectMode a = Mode.analyzeOnly := by
  simp [selectMode, h1]

/-- Checks the amended C9 on the both-flags command line. -/
theorem analyze_only_takes_precedence_check :
    selectMode argsBoth = Mode.analyzeOnly :=
  analyze_only_takes_precedence argsBoth (by decide) (by decide)

end MergeDiscovery
